import Mathlib

/-!
Verification of the SmartAlloc allocation engine.

The definitions below are a shallow embedding of the server-side logic of
the SmartAlloc resource-booking application: the allocation controller
(createAllocation, updateAllocationStatus, getAllAllocations), the resource
controller (getAllResources, getResourceById) and the Mongoose Allocation
model (pre-save validation, the timeStatus virtual).  Timestamps are
modelled as integers (epoch milliseconds); the MongoDB store is modelled as
an in-memory list of records; request/response plumbing is modelled by a
Response structure carrying the HTTP status code and the JSON payload
fields actually produced by the code.
-/

namespace SmartAlloc

/-- An Allocation document (Mongoose Allocation model).  `approvalStatus`
is one of "pending", "approved", "rejected" (schema enum). -/
structure Allocation where
  id : Nat
  resourceId : Nat
  assignedTo : String
  startTime : Int
  endTime : Int
  purpose : String
  approvalStatus : String
  requestedBy : Option Nat
deriving Repr, DecidableEq

/-- A Resource document (Mongoose Resource model): identity, name,
type/category, description.  No stored status field. -/
structure Resource where
  id : Nat
  name : String
  rtype : String
  description : String
deriving Repr, DecidableEq

/-- The persistence store: resources, allocations, and a fresh-id counter
standing in for MongoDB ObjectId generation. -/
structure DB where
  resources : List Resource
  allocations : List Allocation
  nextId : Nat
deriving Repr, DecidableEq

/-- One entry of the `existingAllocations` array in a 409 conflict payload:
createAllocation maps each conflicting allocation to its assignedTo,
startTime, endTime and purpose. -/
structure ConflictEntry where
  assignedTo : String
  startTime : Int
  endTime : Int
  purpose : String
deriving Repr, DecidableEq

/-- The `conflictDetails` object of createAllocation's 409 response. -/
structure ConflictDetails where
  resourceName : String
  existingAllocations : List ConflictEntry
deriving Repr, DecidableEq

/-- An HTTP response as produced by the allocation controller: status code,
`success` flag, `message`, optional `conflictDetails` (only on
createAllocation's 409), optional `data` record. -/
structure Response where
  status : Nat
  success : Bool
  message : String
  conflictDetails : Option ConflictDetails
  data : Option Allocation
deriving Repr, DecidableEq

/-- `res.status(code).json(\x7b success: false, message \x7d)`. -/
def errorResponse (status : Nat) (message : String) : Response :=
  { status := status, success := false, message := message,
    conflictDetails := none, data := none }

/-- The Mongo query predicate used by both conflict checks:
`resourceId = rid`, `approvalStatus = "approved"`,
`startTime < e` (`$lt`), `endTime > s` (`$gt`), and, when `excl` is given
(updateAllocationStatus), `_id ≠ excl` (`$ne`). -/
def matchesConflict (rid : Nat) (s e : Int) (excl : Option Nat)
    (a : Allocation) : Bool :=
  (match excl with
   | some i => a.id != i
   | none => true) &&
  a.resourceId == rid &&
  a.approvalStatus == "approved" &&
  decide (a.startTime < e) &&
  decide (a.endTime > s)

/-- `Allocation.find(\x7b resourceId, approvalStatus: "approved",
startTime: \x7b $lt: e \x7d, endTime: \x7b $gt: s \x7d [, _id: \x7b $ne: excl \x7d] \x7d)`:
the set of conflicting approved allocations. -/
def conflictQuery (allocs : List Allocation) (rid : Nat) (s e : Int)
    (excl : Option Nat) : List Allocation :=
  allocs.filter (matchesConflict rid s e excl)

/-- Projection used for the conflict report in createAllocation's 409. -/
def Allocation.toConflictEntry (a : Allocation) : ConflictEntry :=
  { assignedTo := a.assignedTo, startTime := a.startTime,
    endTime := a.endTime, purpose := a.purpose }

/-- The allocationSchema pre-save middleware: a save fails when
`endTime <= startTime`, otherwise the document is stored unchanged. -/
def saveAllocation (a : Allocation) : Option Allocation :=
  if a.endTime ≤ a.startTime then none else some a

/-- `req.user && req.user.role === "Super User"`.  A user is modelled as an
(id, role) pair; `none` is an absent `req.user`. -/
def isSuperUser (user : Option (Nat × String)) : Bool :=
  match user with
  | some u => u.2 == "Super User"
  | none => false

/-- `approvalStatus = isAdmin ? "approved" : "pending"` in
createAllocation step 6. -/
def decideApprovalStatus (user : Option (Nat × String)) : String :=
  if isSuperUser user then "approved" else "pending"

/-- The request body of POST /api/allocations; `none` models a missing
field. -/
structure CreateBody where
  resourceId : Option Nat
  assignedTo : Option String
  startTime : Option Int
  endTime : Option Int
  purpose : Option String
deriving Repr, DecidableEq

/-- The allocation document built in createAllocation step 6. -/
def newAllocationOf (db : DB) (user : Option (Nat × String))
    (body : CreateBody) (rid : Nat) (aTo : String) (s e : Int) : Allocation :=
  { id := db.nextId, resourceId := rid, assignedTo := aTo,
    startTime := s, endTime := e,
    purpose := body.purpose.getD "",
    approvalStatus := decideApprovalStatus user,
    requestedBy := user.map (fun u => u.1) }

/-- createAllocation (POST /api/allocations).  Steps, in source order:
1. required fields; 2. `newEndTime <= newStartTime` → 400; 3.
`newStartTime < currentTime` → 400; 4. resource lookup → 404; 5. conflict
query over approved allocations, any hit → 409 with conflict report;
6. build the document (auto-approve for Super User) and save it. -/
def createAllocation (db : DB) (now : Int) (user : Option (Nat × String))
    (body : CreateBody) : Response × DB :=
  match body.resourceId, body.assignedTo, body.startTime, body.endTime with
  | some rid, some aTo, some s, some e =>
    if e ≤ s then
      (errorResponse 400 "End time must be after start time", db)
    else if s < now then
      (errorResponse 400 "Start time cannot be in the past", db)
    else
      match db.resources.find? (fun r => r.id == rid) with
      | none => (errorResponse 404 "Resource not found", db)
      | some resource =>
        let conflicting := conflictQuery db.allocations rid s e none
        if 0 < conflicting.length then
          ({ status := 409, success := false,
             message := "Resource already allocated in this time range",
             conflictDetails := some
               { resourceName := resource.name,
                 existingAllocations :=
                   conflicting.map Allocation.toConflictEntry },
             data := none }, db)
        else
          match saveAllocation (newAllocationOf db user body rid aTo s e) with
          | none => (errorResponse 500 "Failed to create allocation", db)
          | some saved =>
            ({ status := 201, success := true,
               message := "Allocation created successfully",
               conflictDetails := none, data := some saved },
             { db with allocations := db.allocations ++ [saved],
                       nextId := db.nextId + 1 })
  | _, _, _, _ =>
    (errorResponse 400
      "resourceId, assignedTo, startTime, and endTime are required fields", db)

/-- updateAllocationStatus (PUT /api/allocations/:id/status).  In source
order: the status-value guard (before any database read), the allocation
lookup, the conflict re-check when approving (excluding the allocation
itself), then the status assignment and save. -/
def updateAllocationStatus (db : DB) (id : Nat) (status : Option String) :
    Response × DB :=
  if ¬ (status = some "approved" ∨ status = some "rejected") then
    (errorResponse 400 "Status must be \"approved\" or \"rejected\"", db)
  else
    let st := status.getD ""
    match db.allocations.find? (fun a => a.id == id) with
    | none => (errorResponse 404 "Allocation not found", db)
    | some alloc =>
      if st = "approved" ∧
          0 < (conflictQuery db.allocations alloc.resourceId
                alloc.startTime alloc.endTime (some id)).length then
        (errorResponse 409
          "Cannot approve - conflicts with existing approved allocation", db)
      else
        match saveAllocation { alloc with approvalStatus := st } with
        | none => (errorResponse 500 "Failed to update allocation status", db)
        | some saved =>
          ({ status := 200, success := true,
             message := "Allocation " ++ st ++ " successfully",
             conflictDetails := none, data := some saved },
           { db with allocations :=
               db.allocations.map (fun a => if a.id == id then saved else a) })

/-- The timeStatus virtual of the Allocation schema:
`now < startTime` → "Upcoming"; `now >= startTime && now <= endTime` →
"Active"; otherwise "Completed". -/
def timeStatus (startTime endTime now : Int) : String :=
  if now < startTime then "Upcoming"
  else if startTime ≤ now ∧ now ≤ endTime then "Active"
  else "Completed"

/-- The status computation inlined in getAllAllocations (and in the
dashboard's recent-allocations preview), written exactly as that code. -/
def allocationDisplayStatus (startTime endTime now : Int) : String :=
  if now < startTime then "Upcoming"
  else if startTime ≤ now ∧ now ≤ endTime then "Active"
  else "Completed"

/-- Occupant projection returned as `currentAllocation` by
getAllResources. -/
structure CurrentAllocation where
  assignedTo : String
  startTime : Int
  endTime : Int
  purpose : String
deriving Repr, DecidableEq

/-- The `Allocation.findOne(\x7b resourceId, startTime: \x7b $lte: now \x7d,
endTime: \x7b $gte: now \x7d \x7d)` query of getAllResources /
getResourceById.  Note: no approvalStatus condition appears in the
source query. -/
def coversNow (rid : Nat) (now : Int) (a : Allocation) : Bool :=
  a.resourceId == rid && decide (a.startTime ≤ now) && decide (now ≤ a.endTime)

/-- First allocation of the resource whose interval covers `now`. -/
def activeAllocationFor (allocs : List Allocation) (rid : Nat) (now : Int) :
    Option Allocation :=
  allocs.find? (coversNow rid now)

/-- Resource status derivation of getAllResources: "Allocated" with the
occupant projection when an allocation covers now, else "Available". -/
def deriveResourceStatus (allocs : List Allocation) (rid : Nat) (now : Int) :
    String × Option CurrentAllocation :=
  match activeAllocationFor allocs rid now with
  | some a =>
    ("Allocated", some { assignedTo := a.assignedTo,
                         startTime := a.startTime,
                         endTime := a.endTime,
                         purpose := a.purpose })
  | none => ("Available", none)

/-- The overlap relation of the spec: `[s1,e1)` and `[s2,e2)` overlap iff
`s1 < e2 AND e1 > s2`. -/
def overlaps (a b : Allocation) : Prop :=
  a.startTime < b.endTime ∧ a.endTime > b.startTime

/-- Invariant: no two distinct approved allocations of the same resource
overlap. -/
def ApprovedNoOverlap (allocs : List Allocation) : Prop :=
  ∀ a ∈ allocs, ∀ b ∈ allocs,
    a.id ≠ b.id → a.approvalStatus = "approved" →
    b.approvalStatus = "approved" → a.resourceId = b.resourceId →
    ¬ overlaps a b

/-- Invariant: every stored allocation has `endTime > startTime`. -/
def EndAfterStart (allocs : List Allocation) : Prop :=
  ∀ a ∈ allocs, a.startTime < a.endTime

end SmartAlloc

namespace SmartAlloc

/-! ### Sample data used by witnesses and counterexamples -/

/-- A sample resource (id 1). -/
def roomA : Resource :=
  { id := 1, name := "Room A", rtype := "Room", description := "" }

/-- Scenario 1 fixture: an approved allocation of resource 1 on [10,11). -/
def approvedTenEleven : Allocation :=
  { id := 0, resourceId := 1, assignedTo := "Alice", startTime := 10,
    endTime := 11, purpose := "standup", approvalStatus := "approved",
    requestedBy := none }

/-- A pending allocation of resource 1 on [5,15), overlapping
`approvedTenEleven`. -/
def pendingFiveFifteen : Allocation :=
  { id := 1, resourceId := 1, assignedTo := "Bob", startTime := 5,
    endTime := 15, purpose := "demo", approvalStatus := "pending",
    requestedBy := some 7 }

/-- A store holding `roomA`, `approvedTenEleven` and
`pendingFiveFifteen`. -/
def conflictDb : DB :=
  { resources := [roomA],
    allocations := [approvedTenEleven, pendingFiveFifteen],
    nextId := 2 }

/-- A store holding `roomA` and only the approved allocation. -/
def approvedDb : DB :=
  { resources := [roomA], allocations := [approvedTenEleven], nextId := 1 }

/-- Scenario 2 request body: resource 1, [11,12), touching the approved
allocation at its end boundary. -/
def touchBody : CreateBody :=
  { resourceId := some 1, assignedTo := some "Carol",
    startTime := some 11, endTime := some 12, purpose := none }

/-- A request body overlapping `approvedTenEleven`. -/
def overlapBody : CreateBody :=
  { resourceId := some 1, assignedTo := some "Dave",
    startTime := some 5, endTime := some 15, purpose := some "demo" }

/-! ### Helper lemmas about the conflict query -/

theorem matchesConflict_iff (rid : Nat) (s e : Int) (excl : Option Nat)
    (a : Allocation) :
    matchesConflict rid s e excl a = true ↔
      (∀ i, excl = some i → a.id ≠ i) ∧ a.resourceId = rid ∧
      a.approvalStatus = "approved" ∧ a.startTime < e ∧ a.endTime > s := by
  cases excl with
  | none => simp [matchesConflict]; tauto
  | some i => simp [matchesConflict]; tauto

theorem mem_conflictQuery {allocs : List Allocation} {rid : Nat} {s e : Int}
    {excl : Option Nat} {a : Allocation} :
    a ∈ conflictQuery allocs rid s e excl ↔
      a ∈ allocs ∧ (∀ i, excl = some i → a.id ≠ i) ∧ a.resourceId = rid ∧
      a.approvalStatus = "approved" ∧ a.startTime < e ∧ a.endTime > s := by
  unfold conflictQuery
  rw [List.mem_filter, matchesConflict_iff]

theorem conflictQuery_eq_nil_iff (allocs : List Allocation) (rid : Nat)
    (s e : Int) (excl : Option Nat) :
    conflictQuery allocs rid s e excl = [] ↔
      ∀ a ∈ allocs, ¬ ((∀ i, excl = some i → a.id ≠ i) ∧ a.resourceId = rid ∧
        a.approvalStatus = "approved" ∧ a.startTime < e ∧ a.endTime > s) := by
  unfold conflictQuery
  rw [List.filter_eq_nil_iff]
  constructor
  · intro h a ha
    rw [← matchesConflict_iff rid s e excl a]
    intro hc
    exact h a ha hc
  · intro h a ha
    rw [matchesConflict_iff]
    exact h a ha

/-! ### Branch characterization of createAllocation -/

theorem create_db_cases (db : DB) (now : Int) (user : Option (Nat × String))
    (body : CreateBody) :
    ((createAllocation db now user body).2 = db ∧
     (createAllocation db now user body).1.status ≠ 201 ∧
     (createAllocation db now user body).1.data = none) ∨
    (∃ rid aTo s e,
      body.resourceId = some rid ∧ body.assignedTo = some aTo ∧
      body.startTime = some s ∧ body.endTime = some e ∧
      s < e ∧ now ≤ s ∧
      conflictQuery db.allocations rid s e none = [] ∧
      (createAllocation db now user body).1.status = 201 ∧
      (createAllocation db now user body).1.data =
        some (newAllocationOf db user body rid aTo s e) ∧
      (createAllocation db now user body).2 =
        { db with
            allocations :=
              db.allocations ++ [newAllocationOf db user body rid aTo s e],
            nextId := db.nextId + 1 }) := by
  rcases hrid : body.resourceId with _ | rid
  · left; simp [createAllocation, hrid, errorResponse]
  rcases hass : body.assignedTo with _ | aTo
  · left; simp [createAllocation, hrid, hass, errorResponse]
  rcases hs : body.startTime with _ | s
  · left; simp [createAllocation, hrid, hass, hs, errorResponse]
  rcases he : body.endTime with _ | e
  · left; simp [createAllocation, hrid, hass, hs, he, errorResponse]
  by_cases h1 : e ≤ s
  · left; simp [createAllocation, hrid, hass, hs, he, h1, errorResponse]
  by_cases h2 : s < now
  · left; simp [createAllocation, hrid, hass, hs, he, h1, h2, errorResponse]
  rcases hf : db.resources.find? (fun r => r.id == rid) with _ | resource
  · left; simp [createAllocation, hrid, hass, hs, he, h1, h2, hf, errorResponse]
  by_cases h3 : 0 < (conflictQuery db.allocations rid s e none).length
  · left
    simp [createAllocation, hrid, hass, hs, he, h1, h2, hf, h3, errorResponse]
  · right
    have hnil : conflictQuery db.allocations rid s e none = [] := by
      have hz : (conflictQuery db.allocations rid s e none).length = 0 := by
        omega
      exact List.length_eq_zero.mp hz
    refine ⟨rid, aTo, s, e, rfl, rfl, rfl, rfl, not_le.mp h1, not_lt.mp h2,
      hnil, ?_, ?_, ?_⟩ <;>
    simp [createAllocation, hrid, hass, hs, he, h1, h2, hf, h3,
      saveAllocation, newAllocationOf]

end SmartAlloc

namespace SmartAlloc

/-! ### Branch characterization of updateAllocationStatus -/

theorem update_db_cases (db : DB) (id : Nat) (status : Option String) :
    ((updateAllocationStatus db id status).2 = db ∧
     (updateAllocationStatus db id status).1.status ≠ 200 ∧
     (updateAllocationStatus db id status).1.data = none) ∨
    (∃ st alloc,
      status = some st ∧ (st = "approved" ∨ st = "rejected") ∧
      db.allocations.find? (fun a => a.id == id) = some alloc ∧
      alloc.startTime < alloc.endTime ∧
      (st = "approved" →
        conflictQuery db.allocations alloc.resourceId alloc.startTime
          alloc.endTime (some id) = []) ∧
      (updateAllocationStatus db id status).1.status = 200 ∧
      (updateAllocationStatus db id status).1.data =
        some { alloc with approvalStatus := st } ∧
      (updateAllocationStatus db id status).2 =
        { db with
            allocations := db.allocations.map
                             (fun a =>
                               if a.id == id
                               then { alloc with approvalStatus := st }
                               else a) }) := by
  by_cases hv : status = some "approved" ∨ status = some "rejected"
  case neg =>
    left; simp [updateAllocationStatus, hv, errorResponse]
  rcases hf : db.allocations.find? (fun a => a.id == id) with _ | alloc
  · left; simp [updateAllocationStatus, hv, hf, errorResponse]
  obtain ⟨st, hst, hstv⟩ :
      ∃ st, status = some st ∧ (st = "approved" ∨ st = "rejected") := by
    rcases hv with h | h
    · exact ⟨"approved", h, Or.inl rfl⟩
    · exact ⟨"rejected", h, Or.inr rfl⟩
  have hg : ¬ (¬ st = "approved" ∧ ¬ st = "rejected") := by tauto
  by_cases hc : st = "approved" ∧
      0 < (conflictQuery db.allocations alloc.resourceId alloc.startTime
            alloc.endTime (some id)).length
  · left
    simp [updateAllocationStatus, hv, hf, hst, hc, errorResponse]
  by_cases hts : alloc.endTime ≤ alloc.startTime
  · left
    simp [updateAllocationStatus, hv, hf, hst, hc, hts, hg, saveAllocation,
      errorResponse]
  · right
    refine ⟨st, alloc, hst, hstv, hf, not_le.mp hts, ?_, ?_, ?_, ?_⟩
    · intro hap
      by_contra hne
      exact hc ⟨hap, List.length_pos.mpr hne⟩
    all_goals
      simp [updateAllocationStatus, hv, hf, hst, hc, hts, hg, saveAllocation,
        errorResponse]

end SmartAlloc

namespace SmartAlloc

/-! ### Preservation of the approved-no-overlap invariant -/

theorem create_preserves_ANO (db : DB) (now : Int)
    (user : Option (Nat × String)) (body : CreateBody)
    (h : ApprovedNoOverlap db.allocations) :
    ApprovedNoOverlap (createAllocation db now user body).2.allocations := by
  rcases create_db_cases db now user body with ⟨h2, _, _⟩ |
    ⟨rid, aTo, s, e, _, _, _, _, _, _, hempty, _, _, h2⟩
  · rw [h2]; exact h
  · rw [h2]
    have hnomatch :=
      (conflictQuery_eq_nil_iff db.allocations rid s e none).mp hempty
    intro a ha b hb hab hastat hbstat hres
    rcases List.mem_append.mp ha with ha' | ha' <;>
      rcases List.mem_append.mp hb with hb' | hb'
    · exact h a ha' b hb' hab hastat hbstat hres
    · have hbn : b = newAllocationOf db user body rid aTo s e :=
        List.mem_singleton.mp hb'
      intro hov
      rw [hbn] at hov hres
      apply hnomatch a ha'
      exact ⟨by simp, hres, hastat, hov.1, hov.2⟩
    · have han : a = newAllocationOf db user body rid aTo s e :=
        List.mem_singleton.mp ha'
      intro hov
      rw [han] at hov hres
      apply hnomatch b hb'
      exact ⟨by simp, hres.symm, hbstat, hov.2, hov.1⟩
    · have han : a = newAllocationOf db user body rid aTo s e :=
        List.mem_singleton.mp ha'
      have hbn : b = newAllocationOf db user body rid aTo s e :=
        List.mem_singleton.mp hb'
      exact absurd (by rw [han, hbn]) hab

theorem update_preserves_ANO (db : DB) (id : Nat) (status : Option String)
    (h : ApprovedNoOverlap db.allocations) :
    ApprovedNoOverlap (updateAllocationStatus db id status).2.allocations := by
  rcases update_db_cases db id status with ⟨h2, _, _⟩ |
    ⟨st, alloc, hst, hstv, hf, hts, hempty, _, _, h2⟩
  · rw [h2]; exact h
  · rw [h2]
    intro a ha b hb hab hastat hbstat hres
    rcases List.mem_map.mp ha with ⟨a0, ha0, haeq⟩
    rcases List.mem_map.mp hb with ⟨b0, hb0, hbeq⟩
    by_cases hida : a0.id = id <;> by_cases hidb : b0.id = id
    · have ha' : a = { alloc with approvalStatus := st } := by
        rw [← haeq]; simp [hida]
      have hb' : b = { alloc with approvalStatus := st } := by
        rw [← hbeq]; simp [hidb]
      exact absurd (by rw [ha', hb']) hab
    · have ha' : a = { alloc with approvalStatus := st } := by
        rw [← haeq]; simp [hida]
      have hb' : b = b0 := by rw [← hbeq]; simp [hidb]
      have hstap : st = "approved" := by
        rw [ha'] at hastat; simpa using hastat
      have hnomatch := (conflictQuery_eq_nil_iff db.allocations
        alloc.resourceId alloc.startTime alloc.endTime (some id)).mp
        (hempty hstap)
      intro hov
      rw [ha'] at hov hres
      rw [hb'] at hov hres hbstat
      apply hnomatch b0 hb0
      refine ⟨?_, hres.symm, hbstat, hov.2, hov.1⟩
      intro i hi
      cases hi
      exact hidb
    · have ha' : a = a0 := by rw [← haeq]; simp [hida]
      have hb' : b = { alloc with approvalStatus := st } := by
        rw [← hbeq]; simp [hidb]
      have hstap : st = "approved" := by
        rw [hb'] at hbstat; simpa using hbstat
      have hnomatch := (conflictQuery_eq_nil_iff db.allocations
        alloc.resourceId alloc.startTime alloc.endTime (some id)).mp
        (hempty hstap)
      intro hov
      rw [hb'] at hov hres
      rw [ha'] at hov hres hastat
      apply hnomatch a0 ha0
      refine ⟨?_, hres, hastat, hov.1, hov.2⟩
      intro i hi
      cases hi
      exact hida
    · have ha' : a = a0 := by rw [← haeq]; simp [hida]
      have hb' : b = b0 := by rw [← hbeq]; simp [hidb]
      rw [ha', hb'] at hab hres ⊢
      rw [ha'] at hastat
      rw [hb'] at hbstat
      exact h a0 ha0 b0 hb0 hab hastat hbstat hres

end SmartAlloc

namespace SmartAlloc

theorem create_409_unchanged (db : DB) (now : Int)
    (user : Option (Nat × String)) (body : CreateBody)
    (h409 : (createAllocation db now user body).1.status = 409) :
    (createAllocation db now user body).2 = db := by
  rcases create_db_cases db now user body with ⟨hdb, _, _⟩ |
    ⟨_, _, _, _, _, _, _, _, _, _, _, h201, _, _⟩
  · exact hdb
  · rw [h201] at h409
    exact absurd h409 (by decide)

theorem update_409_unchanged (db : DB) (id : Nat) (status : Option String)
    (h409 : (updateAllocationStatus db id status).1.status = 409) :
    (updateAllocationStatus db id status).2 = db := by
  rcases update_db_cases db id status with ⟨hdb, _, _⟩ |
    ⟨_, _, _, _, _, _, _, h200, _, _⟩
  · exact hdb
  · rw [h200] at h409
    exact absurd h409 (by decide)

/-- C1: the engine never admits two approved allocations of the same
resource with overlapping [start, end) intervals.  If the store satisfies
the no-approved-overlap invariant, then it still does after any
createAllocation call and after any updateAllocationStatus call; moreover,
whenever either operation answers with a 409 conflict, the store is left
unchanged (the guarded transition is refused). -/
theorem C1_no_overlapping_approvals (db : DB) (now : Int)
    (user : Option (Nat × String)) (body : CreateBody) (id : Nat)
    (status : Option String) (h : ApprovedNoOverlap db.allocations) :
    ApprovedNoOverlap (createAllocation db now user body).2.allocations ∧
    ApprovedNoOverlap (updateAllocationStatus db id status).2.allocations ∧
    ((createAllocation db now user body).1.status = 409 →
      (createAllocation db now user body).2 = db) ∧
    ((updateAllocationStatus db id status).1.status = 409 →
      (updateAllocationStatus db id status).2 = db) :=
  ⟨create_preserves_ANO db now user body h,
   update_preserves_ANO db id status h,
   create_409_unchanged db now user body,
   update_409_unchanged db id status⟩

theorem C1_witness :
    ApprovedNoOverlap (createAllocation conflictDb 0 none overlapBody).2.allocations ∧
    ApprovedNoOverlap (updateAllocationStatus conflictDb 1 (some "approved")).2.allocations ∧
    ((createAllocation conflictDb 0 none overlapBody).1.status = 409 →
      (createAllocation conflictDb 0 none overlapBody).2 = conflictDb) ∧
    ((updateAllocationStatus conflictDb 1 (some "approved")).1.status = 409 →
      (updateAllocationStatus conflictDb 1 (some "approved")).2 = conflictDb) :=
  C1_no_overlapping_approvals conflictDb 0 none overlapBody 1
    (some "approved") (by unfold ApprovedNoOverlap overlaps; decide)

/-- C2: the conflict set is exactly the approved allocations of the same
resource whose interval satisfies existing.start < new.end AND
existing.end > new.start, minus the excluded id when one is given; an
interval that merely touches every approved interval of the resource at a
boundary yields an empty conflict set. -/
theorem C2_conflict_set_exact (allocs : List Allocation) (rid : Nat)
    (s e : Int) (excl : Option Nat) (a : Allocation) :
    (a ∈ conflictQuery allocs rid s e excl ↔
      a ∈ allocs ∧ (∀ i, excl = some i → a.id ≠ i) ∧ a.resourceId = rid ∧
      a.approvalStatus = "approved" ∧ a.startTime < e ∧ a.endTime > s) ∧
    ((∀ b ∈ allocs, b.resourceId = rid → b.approvalStatus = "approved" →
        b.endTime = s ∨ b.startTime = e) →
      conflictQuery allocs rid s e excl = []) := by
  constructor
  · exact mem_conflictQuery
  · intro htouch
    rw [conflictQuery_eq_nil_iff]
    rintro b hb ⟨_, hres, hap, hlt, hgt⟩
    rcases htouch b hb hres hap with hb1 | hb1
    · rw [hb1] at hgt
      exact lt_irrefl s hgt
    · rw [hb1] at hlt
      exact lt_irrefl e hlt

theorem C2_witness :
    conflictQuery approvedDb.allocations 1 11 12 none = [] ∧
    (createAllocation approvedDb 0 none touchBody).1.status = 201 :=
  ⟨(C2_conflict_set_exact approvedDb.allocations 1 11 12 none
      approvedTenEleven).2 (by decide),
   by decide⟩

end SmartAlloc

namespace SmartAlloc

/-! ### C3: resource status derivation -/

theorem coversNow_iff (rid : Nat) (now : Int) (a : Allocation) :
    coversNow rid now a = true ↔
      a.resourceId = rid ∧ a.startTime ≤ now ∧ now ≤ a.endTime := by
  simp [coversNow]
  tauto

/-- C3 counterexample: a store whose only allocation for resource 1 is
pending and covers the instant 7; the code still derives "Allocated",
refuting the claimed equivalence with the existence of an approved
covering allocation. -/
theorem C3_counterexample :
    ¬ ((deriveResourceStatus [pendingFiveFifteen] 1 7).1 = "Allocated" ↔
       ∃ a ∈ [pendingFiveFifteen], a.resourceId = 1 ∧
         a.approvalStatus = "approved" ∧ a.startTime ≤ 7 ∧
         (7 : Int) ≤ a.endTime) := by
  decide

/-- C3 (amended): deriveResourceStatus returns "Allocated" at `now` iff
some allocation of the resource — of any approval status, the query has no
approvalStatus filter — satisfies start ≤ now ≤ end; when "Allocated" the
returned occupant is such an allocation's assignee, interval and purpose,
and otherwise the result is ("Available", no occupant). -/
theorem C3_resource_status_any_allocation (allocs : List Allocation)
    (rid : Nat) (now : Int) :
    ((deriveResourceStatus allocs rid now).1 = "Allocated" ↔
      ∃ a ∈ allocs, a.resourceId = rid ∧ a.startTime ≤ now ∧
        now ≤ a.endTime) ∧
    (∀ occ, (deriveResourceStatus allocs rid now).2 = some occ →
      ∃ a ∈ allocs, a.resourceId = rid ∧ a.startTime ≤ now ∧
        now ≤ a.endTime ∧
        occ = { assignedTo := a.assignedTo, startTime := a.startTime,
                endTime := a.endTime, purpose := a.purpose }) ∧
    ((¬ ∃ a ∈ allocs, a.resourceId = rid ∧ a.startTime ≤ now ∧
        now ≤ a.endTime) →
      deriveResourceStatus allocs rid now = ("Available", none)) := by
  rcases hfind : activeAllocationFor allocs rid now with _ | a
  · have hfind' : allocs.find? (coversNow rid now) = none := hfind
    have hno : ¬ ∃ a ∈ allocs, a.resourceId = rid ∧ a.startTime ≤ now ∧
        now ≤ a.endTime := by
      rintro ⟨a, ha, hc⟩
      exact (List.find?_eq_none.mp hfind' a ha) ((coversNow_iff rid now a).mpr hc)
    refine ⟨?_, ?_, ?_⟩
    · constructor
      · intro hst
        exfalso
        unfold deriveResourceStatus at hst
        rw [hfind] at hst
        exact absurd hst (by decide)
      · intro hex
        exact absurd hex hno
    · intro occ hocc
      exfalso
      unfold deriveResourceStatus at hocc
      rw [hfind] at hocc
      simp at hocc
    · intro _
      unfold deriveResourceStatus
      rw [hfind]
  · have hfind' : allocs.find? (coversNow rid now) = some a := hfind
    have hmem : a ∈ allocs := List.mem_of_find?_eq_some hfind'
    have hprop := (coversNow_iff rid now a).mp (List.find?_some hfind')
    refine ⟨?_, ?_, ?_⟩
    · constructor
      · intro _
        exact ⟨a, hmem, hprop⟩
      · intro _
        unfold deriveResourceStatus
        rw [hfind]
    · intro occ hocc
      unfold deriveResourceStatus at hocc
      rw [hfind] at hocc
      simp at hocc
      exact ⟨a, hmem, hprop.1, hprop.2.1, hprop.2.2, hocc.symm⟩
    · intro hnex
      exact absurd ⟨a, hmem, hprop⟩ hnex

theorem C3_witness :
    (deriveResourceStatus [approvedTenEleven] 1 10).1 = "Allocated" :=
  (C3_resource_status_any_allocation [approvedTenEleven] 1 10).1.mpr
    (by decide)

/-! ### C4: approval status transitions -/

/-- C4 counterexample: the claim forbids any status change of an already
approved allocation, but updateAllocationStatus succeeds (HTTP 200) in
turning the approved allocation of `approvedDb` into a rejected one. -/
theorem C4_counterexample :
    (updateAllocationStatus approvedDb 0 (some "rejected")).1.status = 200 ∧
    (updateAllocationStatus approvedDb 0 (some "rejected")).2.allocations =
      [{ approvedTenEleven with approvalStatus := "rejected" }] ∧
    approvedTenEleven.approvalStatus = "approved" := by
  decide

/-- C4 (amended): updateAllocationStatus admits only the target values
"approved" and "rejected", but never checks the allocation's current
status: a successful update (HTTP 200) overwrites whatever status the
target allocation had — so approved → rejected and rejected → approved
transitions are also permitted — with the requested value, leaving all
other allocations unchanged. -/
theorem C4_update_overwrites_status (db : DB) (id : Nat)
    (status : Option String)
    (hsucc : (updateAllocationStatus db id status).1.status = 200) :
    ∃ st alloc,
      status = some st ∧ (st = "approved" ∨ st = "rejected") ∧
      db.allocations.find? (fun a => a.id == id) = some alloc ∧
      (updateAllocationStatus db id status).1.data =
        some { alloc with approvalStatus := st } ∧
      (updateAllocationStatus db id status).2.allocations =
        db.allocations.map (fun a =>
          if a.id == id then { alloc with approvalStatus := st } else a) := by
  rcases update_db_cases db id status with ⟨_, hne, _⟩ |
    ⟨st, alloc, hst, hstv, hf, _, _, _, hdata, h2⟩
  · exact absurd hsucc hne
  · exact ⟨st, alloc, hst, hstv, hf, hdata, by rw [h2]⟩

theorem C4_witness :
    ∃ st alloc,
      (some "rejected" : Option String) = some st ∧
      (st = "approved" ∨ st = "rejected") ∧
      approvedDb.allocations.find? (fun a => a.id == 0) = some alloc ∧
      (updateAllocationStatus approvedDb 0 (some "rejected")).1.data =
        some { alloc with approvalStatus := st } ∧
      (updateAllocationStatus approvedDb 0 (some "rejected")).2.allocations =
        approvedDb.allocations.map (fun a =>
          if a.id == 0 then { alloc with approvalStatus := st } else a) :=
  C4_update_overwrites_status approvedDb 0 (some "rejected") (by decide)

end SmartAlloc

namespace SmartAlloc

/-! ### C5: conflict error payloads -/

theorem create_409_details (db : DB) (now : Int)
    (user : Option (Nat × String)) (body : CreateBody)
    (h409 : (createAllocation db now user body).1.status = 409) :
    ∃ d, (createAllocation db now user body).1.conflictDetails = some d ∧
      d.existingAllocations ≠ [] := by
  rcases hrid : body.resourceId with _ | rid
  · exfalso
    revert h409
    simp [createAllocation, hrid, errorResponse]
  rcases hass : body.assignedTo with _ | aTo
  · exfalso
    revert h409
    simp [createAllocation, hrid, hass, errorResponse]
  rcases hs : body.startTime with _ | s
  · exfalso
    revert h409
    simp [createAllocation, hrid, hass, hs, errorResponse]
  rcases he : body.endTime with _ | e
  · exfalso
    revert h409
    simp [createAllocation, hrid, hass, hs, he, errorResponse]
  by_cases h1 : e ≤ s
  · exfalso
    revert h409
    simp [createAllocation, hrid, hass, hs, he, h1, errorResponse]
  by_cases h2 : s < now
  · exfalso
    revert h409
    simp [createAllocation, hrid, hass, hs, he, h1, h2, errorResponse]
  rcases hf : db.resources.find? (fun r => r.id == rid) with _ | resource
  · exfalso
    revert h409
    simp [createAllocation, hrid, hass, hs, he, h1, h2, hf, errorResponse]
  by_cases h3 : 0 < (conflictQuery db.allocations rid s e none).length
  · refine ⟨{ resourceName := resource.name,
              existingAllocations :=
                (conflictQuery db.allocations rid s e none).map
                  Allocation.toConflictEntry }, ?_, ?_⟩
    · simp [createAllocation, hrid, hass, hs, he, h1, h2, hf, h3]
    · have hnonnil : conflictQuery db.allocations rid s e none ≠ [] := by
        intro hh
        rw [hh] at h3
        exact absurd h3 (by decide)
      simpa using hnonnil
  · exfalso
    revert h409
    simp [createAllocation, hrid, hass, hs, he, h1, h2, hf, h3,
      saveAllocation, newAllocationOf, errorResponse]

theorem update_conflictDetails_none (db : DB) (id : Nat)
    (status : Option String) :
    (updateAllocationStatus db id status).1.conflictDetails = none := by
  by_cases hv : status = some "approved" ∨ status = some "rejected"
  case neg => simp [updateAllocationStatus, hv, errorResponse]
  rcases hf : db.allocations.find? (fun a => a.id == id) with _ | alloc
  · simp [updateAllocationStatus, hv, hf, errorResponse]
  obtain ⟨st, hst⟩ : ∃ st, status = some st := by
    rcases hv with h | h
    · exact ⟨"approved", h⟩
    · exact ⟨"rejected", h⟩
  by_cases hc : st = "approved" ∧
      0 < (conflictQuery db.allocations alloc.resourceId alloc.startTime
            alloc.endTime (some id)).length
  · simp [updateAllocationStatus, hv, hf, hst, hc, errorResponse]
  by_cases hts : alloc.endTime ≤ alloc.startTime
  · simp only [updateAllocationStatus, hv, hf, hst, hc, hts, saveAllocation,
      errorResponse]
    split_ifs <;> rfl
  · simp only [updateAllocationStatus, hv, hf, hst, hc, hts, saveAllocation,
      errorResponse]
    split_ifs <;> rfl

/-- C5 counterexample: approving the pending overlapping allocation of
`conflictDb` is refused with a 409 whose payload carries no list of
colliding allocations, only a message — refuting the claim that every
conflict rejection includes the collision list. -/
theorem C5_counterexample :
    (updateAllocationStatus conflictDb 1 (some "approved")).1.status = 409 ∧
    (updateAllocationStatus conflictDb 1 (some "approved")).1.conflictDetails
      = none := by
  decide

/-- C5 (amended): a conflict rejection on createAllocation is a 409 whose
payload includes the non-empty list of colliding allocations; a conflict
rejection on approval via updateAllocationStatus is a 409 carrying only a
message — its payload never includes conflict details. -/
theorem C5_conflict_payloads (db : DB) (now : Int)
    (user : Option (Nat × String)) (body : CreateBody) (id : Nat)
    (status : Option String) :
    ((createAllocation db now user body).1.status = 409 →
      ∃ d, (createAllocation db now user body).1.conflictDetails = some d ∧
        d.existingAllocations ≠ []) ∧
    ((updateAllocationStatus db id status).1.status = 409 →
      (updateAllocationStatus db id status).1.conflictDetails = none) :=
  ⟨fun h409 => create_409_details db now user body h409,
   fun _ => update_conflictDetails_none db id status⟩

theorem C5_witness :
    (∃ d, (createAllocation conflictDb 0 none overlapBody).1.conflictDetails
        = some d ∧ d.existingAllocations ≠ []) ∧
    (updateAllocationStatus conflictDb 1 (some "approved")).1.conflictDetails
      = none :=
  ⟨(C5_conflict_payloads conflictDb 0 none overlapBody 1
      (some "approved")).1 (by decide),
   (C5_conflict_payloads conflictDb 0 none overlapBody 1
      (some "approved")).2 (by decide)⟩

end SmartAlloc

namespace SmartAlloc

/-! ### C6: allocation time status -/

/-- C6: deriveAllocationStatus (the timeStatus virtual of the Allocation
schema, and the identical computation inlined in getAllAllocations) is a
total deterministic function of (start, end, now): for an allocation with
start < end it returns exactly one of Upcoming/Active/Completed, with
inclusive boundaries: start = now and end = now both yield Active,
now < start yields Upcoming, now > end yields Completed. -/
theorem C6_time_status_total (s e now : Int) (h : s < e) :
    (timeStatus s e now = "Upcoming" ∨ timeStatus s e now = "Active" ∨
      timeStatus s e now = "Completed") ∧
    allocationDisplayStatus s e now = timeStatus s e now ∧
    (now < s → timeStatus s e now = "Upcoming") ∧
    (s ≤ now → now ≤ e → timeStatus s e now = "Active") ∧
    (e < now → timeStatus s e now = "Completed") ∧
    (now = s → timeStatus s e now = "Active") ∧
    (now = e → timeStatus s e now = "Active") := by
  unfold timeStatus allocationDisplayStatus
  refine ⟨?_, rfl, ?_, ?_, ?_, ?_, ?_⟩
  · split_ifs <;> simp
  · intro h1
    rw [if_pos h1]
  · intro h1 h2
    split_ifs <;> first | rfl | (exfalso; omega)
  · intro h1
    split_ifs <;> first | rfl | (exfalso; omega)
  · intro h1
    split_ifs <;> first | rfl | (exfalso; omega)
  · intro h1
    split_ifs <;> first | rfl | (exfalso; omega)

theorem C6_witness :
    timeStatus 0 10 0 = "Active" ∧ timeStatus 0 10 10 = "Active" ∧
    timeStatus 0 10 (-1) = "Upcoming" ∧ timeStatus 0 10 11 = "Completed" :=
  ⟨(C6_time_status_total 0 10 0 (by decide)).2.2.2.2.2.1 rfl,
   (C6_time_status_total 0 10 10 (by decide)).2.2.2.2.2.2 rfl,
   (C6_time_status_total 0 10 (-1) (by decide)).2.2.1 (by decide),
   (C6_time_status_total 0 10 11 (by decide)).2.2.2.2.1 (by decide)⟩

/-! ### C7: createAllocation precondition order -/

/-- C7: with all required fields present, createAllocation rejects
end ≤ start as an invalid-range 400 regardless of anything else; a past
start (with a valid range) as a 400 regardless of resource or conflicts; an
unknown resource (with valid times) as a 404 — in that order, each with a
distinct error response and the store unchanged. -/
theorem C7_create_precondition_order (db : DB) (now : Int)
    (user : Option (Nat × String)) (body : CreateBody) (rid : Nat)
    (aTo : String) (s e : Int)
    (hrid : body.resourceId = some rid) (hass : body.assignedTo = some aTo)
    (hs : body.startTime = some s) (he : body.endTime = some e) :
    (e ≤ s →
      createAllocation db now user body =
        (errorResponse 400 "End time must be after start time", db)) ∧
    (s < e → s < now →
      createAllocation db now user body =
        (errorResponse 400 "Start time cannot be in the past", db)) ∧
    (s < e → now ≤ s → db.resources.find? (fun r => r.id == rid) = none →
      createAllocation db now user body =
        (errorResponse 404 "Resource not found", db)) ∧
    errorResponse 400 "End time must be after start time" ≠
      errorResponse 400 "Start time cannot be in the past" ∧
    errorResponse 400 "End time must be after start time" ≠
      errorResponse 404 "Resource not found" ∧
    errorResponse 400 "Start time cannot be in the past" ≠
      errorResponse 404 "Resource not found" := by
  refine ⟨?_, ?_, ?_, by decide, by decide, by decide⟩
  · intro h1
    simp [createAllocation, hrid, hass, hs, he, h1]
  · intro h1 h2
    have h1' : ¬ e ≤ s := not_le.mpr h1
    simp [createAllocation, hrid, hass, hs, he, h1', h2]
  · intro h1 h2 hf
    have h1' : ¬ e ≤ s := not_le.mpr h1
    have h2' : ¬ s < now := not_lt.mpr h2
    simp [createAllocation, hrid, hass, hs, he, h1', h2', hf]

/-- A request body whose range is empty (end = start). -/
def badRangeBody : CreateBody :=
  { resourceId := some 1, assignedTo := some "Eve",
    startTime := some 10, endTime := some 10, purpose := none }

theorem C7_witness :
    createAllocation approvedDb 0 none badRangeBody =
      (errorResponse 400 "End time must be after start time", approvedDb) :=
  (C7_create_precondition_order approvedDb 0 none badRangeBody 1 "Eve" 10 10
    rfl rfl rfl rfl).1 (by decide)

/-! ### C8: approval status decided by role -/

/-- C8: for every successfully created allocation (HTTP 201) the persisted
approval status is decideApprovalStatus of the creator: "approved" exactly
when the creator holds the Super User role, else "pending"; the record is
appended to the store with that status (an admin booking never passes
through a pending state). -/
theorem C8_approval_by_role (db : DB) (now : Int)
    (user : Option (Nat × String)) (body : CreateBody)
    (hsucc : (createAllocation db now user body).1.status = 201) :
    ∃ a, (createAllocation db now user body).1.data = some a ∧
      (createAllocation db now user body).2.allocations =
        db.allocations ++ [a] ∧
      a.approvalStatus = decideApprovalStatus user ∧
      (isSuperUser user = true → a.approvalStatus = "approved") ∧
      (isSuperUser user = false → a.approvalStatus = "pending") := by
  rcases create_db_cases db now user body with ⟨_, hne, _⟩ |
    ⟨rid, aTo, s, e, _, _, _, _, _, _, _, _, hdata, h2⟩
  · exact absurd hsucc hne
  · refine ⟨newAllocationOf db user body rid aTo s e, hdata, by rw [h2],
      rfl, ?_, ?_⟩
    · intro hadmin
      simp [newAllocationOf, decideApprovalStatus, hadmin]
    · intro hnadmin
      simp [newAllocationOf, decideApprovalStatus, hnadmin]

theorem C8_witness :
    ∃ a, (createAllocation approvedDb 0 (some (9, "Super User"))
        touchBody).1.data = some a ∧
      (createAllocation approvedDb 0 (some (9, "Super User"))
        touchBody).2.allocations = approvedDb.allocations ++ [a] ∧
      a.approvalStatus = decideApprovalStatus (some (9, "Super User")) ∧
      (isSuperUser (some (9, "Super User")) = true →
        a.approvalStatus = "approved") ∧
      (isSuperUser (some (9, "Super User")) = false →
        a.approvalStatus = "pending") :=
  C8_approval_by_role approvedDb 0 (some (9, "Super User")) touchBody
    (by decide)

end SmartAlloc

namespace SmartAlloc

/-! ### C9: end after start invariant -/

/-- C9: every allocation ever persisted has endTime > startTime: the
invariant is preserved by createAllocation and by updateAllocationStatus;
the model-level save refuses any document with end ≤ start (so the check
holds even for saves that bypass the controller's range check); and a
creation attempt with end ≤ start is rejected with no record persisted. -/
theorem C9_end_after_start (db : DB) (now : Int)
    (user : Option (Nat × String)) (body : CreateBody) (id : Nat)
    (status : Option String) (x y : Allocation)
    (hinv : EndAfterStart db.allocations) :
    EndAfterStart (createAllocation db now user body).2.allocations ∧
    EndAfterStart (updateAllocationStatus db id status).2.allocations ∧
    (saveAllocation x = some y → y.startTime < y.endTime) ∧
    (∀ s e, body.startTime = some s → body.endTime = some e → e ≤ s →
      (createAllocation db now user body).2 = db ∧
      (createAllocation db now user body).1.status ≠ 201) := by
  refine ⟨?_, ?_, ?_, ?_⟩
  · rcases create_db_cases db now user body with ⟨h2, _, _⟩ |
      ⟨rid, aTo, s, e, _, _, _, _, hslt, _, _, _, _, h2⟩
    · rw [h2]; exact hinv
    · rw [h2]
      intro a ha
      rcases List.mem_append.mp ha with ha' | ha'
      · exact hinv a ha'
      · have han : a = newAllocationOf db user body rid aTo s e :=
          List.mem_singleton.mp ha'
        rw [han]
        simpa [newAllocationOf] using hslt
  · rcases update_db_cases db id status with ⟨h2, _, _⟩ |
      ⟨st, alloc, _, _, hf, hts, _, _, _, h2⟩
    · rw [h2]; exact hinv
    · rw [h2]
      intro a ha
      rcases List.mem_map.mp ha with ⟨a0, ha0, haeq⟩
      by_cases hid : a0.id = id
      · have : a = { alloc with approvalStatus := st } := by
          rw [← haeq]; simp [hid]
        rw [this]
        simpa using hts
      · have : a = a0 := by rw [← haeq]; simp [hid]
        rw [this]
        exact hinv a0 ha0
  · intro hsave
    unfold saveAllocation at hsave
    by_cases hxy : x.endTime ≤ x.startTime
    · rw [if_pos hxy] at hsave
      exact absurd hsave (by simp)
    · rw [if_neg hxy] at hsave
      injection hsave with hv
      rw [← hv]
      exact not_le.mp hxy
  · intro s e hbs hbe hle
    rcases hrid : body.resourceId with _ | rid
    · constructor <;> simp [createAllocation, hrid, errorResponse]
    rcases hass : body.assignedTo with _ | aTo
    · constructor <;> simp [createAllocation, hrid, hass, errorResponse]
    constructor <;>
      simp [createAllocation, hrid, hass, hbs, hbe, hle, errorResponse]

theorem C9_witness :
    EndAfterStart (createAllocation approvedDb 0 none touchBody).2.allocations ∧
    EndAfterStart
      (updateAllocationStatus approvedDb 0 (some "rejected")).2.allocations :=
  ⟨(C9_end_after_start approvedDb 0 none touchBody 0 (some "rejected")
      approvedTenEleven approvedTenEleven
      (by unfold EndAfterStart; decide)).1,
   (C9_end_after_start approvedDb 0 none touchBody 0 (some "rejected")
      approvedTenEleven approvedTenEleven
      (by unfold EndAfterStart; decide)).2.1⟩

/-! ### C10: invalid status guard -/

/-- C10: for every status value other than exactly "approved" or
"rejected" — including a missing one — updateAllocationStatus answers the
400 validation response and returns the store unchanged, for every store
and id (so no allocation is read and nothing changes). -/
theorem C10_invalid_status_guard (db : DB) (id : Nat)
    (status : Option String) (h1 : status ≠ some "approved")
    (h2 : status ≠ some "rejected") :
    updateAllocationStatus db id status =
      (errorResponse 400 "Status must be \"approved\" or \"rejected\"", db) := by
  have hv : ¬ (status = some "approved" ∨ status = some "rejected") := by
    tauto
  simp [updateAllocationStatus, hv]

theorem C10_witness :
    updateAllocationStatus conflictDb 5 none =
      (errorResponse 400 "Status must be \"approved\" or \"rejected\"",
       conflictDb) :=
  C10_invalid_status_guard conflictDb 5 none (by decide) (by decide)

end SmartAlloc
